import Mathlib

/-!
# OBDPHAWD — verification of the spec against the source

Shallow embedding of the OBDPHAWD C library (`src/c/src/obdphawd.c`,
`src/c/include/obdphawd.h`, `src/c/include/bluetooth_le.h`) together with
the spec-described core (Codec, ISO-TP reassembler, BLE canonicalization),
and theorems settling the claims C1–C10 about it.

Conventions of the embedding:
* C machine integers are modelled as `Int`/`Nat`; bytes as `Nat` (frame
  construction only produces values < 256, and byte identity is what the
  round-trip claims are about).
* The mutable globals of `obdphawd.c` (`g_log_level`, the heap of contexts)
  are modelled as an explicit state record `LibState` threaded through the
  operations; observable side effects (free, mutex destroy, printf) are
  returned as an explicit `Effect` trace.
* A PCI byte with high nibble `h` and low nibble `l` is modelled as the
  number `h * 16 + l`; the receiver recovers the nibbles with `/ 16` and
  `% 16`.
-/

namespace OBDPHAWD

/-! ## Part 1: the implemented context bootstrap (`obdphawd.c`) -/

/-- `OBDPHAWD_VERSION_STRING` from `obdphawd.h`. -/
def OBDPHAWD_VERSION_STRING : String := "0.1.0"

/-- The `obdphawd_error_t` enum values from `obdphawd.h`. -/
def OBDPHAWD_SUCCESS : Int := 0

def OBDPHAWD_ERROR_INVALID_PARAM : Int := -1

def OBDPHAWD_ERROR_MEMORY : Int := -2

def OBDPHAWD_ERROR_CONNECTION : Int := -3

def OBDPHAWD_ERROR_TIMEOUT : Int := -4

def OBDPHAWD_ERROR_PROTOCOL : Int := -5

def OBDPHAWD_ERROR_NOT_IMPLEMENTED : Int := -6

def OBDPHAWD_ERROR_BLUETOOTH : Int := -7

/-- The static const `error_strings[]` table of `obdphawd.c`. -/
def error_strings : List String :=
  [ "Success"
  , "Invalid parameter"
  , "Memory allocation failed"
  , "Connection error"
  , "Operation timeout"
  , "Protocol error"
  , "Not implemented"
  , "Bluetooth error" ]

/-- `obdphawd_error_string`: negate the error code to get a table index;
in-bounds indices read the table, anything else falls back to
"Unknown error". Mirrors the C bounds check
`index >= 0 && index < sizeof(error_strings)/sizeof(error_strings[0])`. -/
def obdphawd_error_string (error : Int) : String :=
  let index : Int := -error
  if 0 ≤ index ∧ index < (error_strings.length : Int) then
    error_strings.getD index.toNat "Unknown error"
  else
    "Unknown error"

/-- The `struct obdphawd_context` of `obdphawd.c`: a log level and a mutex
(the mutex has no observable value; its init/destroy shows up in the
effect trace). -/
structure ObdContext where
  log_level : Int
deriving DecidableEq, Repr

/-- The mutable globals of `obdphawd.c` as an explicit state: the
process-wide `g_log_level`, the static error-string table (const in C,
carried here so frame properties can mention it), and the heap of live
contexts keyed by an allocation id. -/
structure LibState where
  g_log_level : Int
  error_table : List String
  next_id : Nat
  contexts : List (Nat × ObdContext)
deriving DecidableEq, Repr

/-- The initial process state: `static int g_log_level = 2;` and the
static table, no contexts allocated. -/
def initialState : LibState :=
  { g_log_level := 2, error_table := error_strings, next_id := 0, contexts := [] }

/-- Observable side effects of the context operations. -/
inductive Effect where
  | freedContext (id : Nat)
  | destroyedMutex (id : Nat)
  | printed (msg : String)
deriving DecidableEq, Repr

/-- `obdphawd_init`: allocate a context, zero it, copy `g_log_level` into
it, init its mutex, print the banner. `allocOk` and `mutexOk` model the
two failure points (`malloc` returning NULL, `pthread_mutex_init`
failing); on either failure no context is published and the state is
unchanged. -/
def obdphawd_init (allocOk mutexOk : Bool) (s : LibState) :
    Option Nat × LibState × List Effect :=
  if allocOk = false then
    (none, s, [])
  else if mutexOk = false then
    (none, s, [])
  else
    (some s.next_id,
     { s with
        next_id := s.next_id + 1
        contexts := (s.next_id, { log_level := s.g_log_level }) :: s.contexts },
     [.printed ("OBDPHAWD v" ++ OBDPHAWD_VERSION_STRING ++ " initialized")])

/-- `obdphawd_cleanup`: a NULL context returns immediately; otherwise the
mutex is destroyed, the context freed, and the completion message
printed. -/
def obdphawd_cleanup (ctx : Option Nat) (s : LibState) : LibState × List Effect :=
  match ctx with
  | none => (s, [])
  | some id =>
      ({ s with contexts := s.contexts.filter (fun p => p.1 != id) },
       [.destroyedMutex id, .freedContext id,
        .printed "OBDPHAWD cleanup completed"])

/-- `obdphawd_version`: returns the version macro, reading no state. -/
def obdphawd_version (_s : LibState) : String := OBDPHAWD_VERSION_STRING

/-- `obdphawd_set_log_level`: assigns the global log level. -/
def obdphawd_set_log_level (level : Int) (s : LibState) : LibState :=
  { s with g_log_level := level }

/-! ## Theorems about the context bootstrap -/

/-- Claim C1: for each error code of the public surface,
`obdphawd_error_string` returns the matching description, and the
`obdphawd_error_t` enum assigns exactly the integers 0, -1, …, -7 in
this order. -/
theorem error_code_surface :
    (OBDPHAWD_SUCCESS = 0 ∧ OBDPHAWD_ERROR_INVALID_PARAM = -1 ∧
     OBDPHAWD_ERROR_MEMORY = -2 ∧ OBDPHAWD_ERROR_CONNECTION = -3 ∧
     OBDPHAWD_ERROR_TIMEOUT = -4 ∧ OBDPHAWD_ERROR_PROTOCOL = -5 ∧
     OBDPHAWD_ERROR_NOT_IMPLEMENTED = -6 ∧ OBDPHAWD_ERROR_BLUETOOTH = -7) ∧
    obdphawd_error_string OBDPHAWD_SUCCESS = "Success" ∧
    obdphawd_error_string OBDPHAWD_ERROR_INVALID_PARAM = "Invalid parameter" ∧
    obdphawd_error_string OBDPHAWD_ERROR_MEMORY = "Memory allocation failed" ∧
    obdphawd_error_string OBDPHAWD_ERROR_CONNECTION = "Connection error" ∧
    obdphawd_error_string OBDPHAWD_ERROR_TIMEOUT = "Operation timeout" ∧
    obdphawd_error_string OBDPHAWD_ERROR_PROTOCOL = "Protocol error" ∧
    obdphawd_error_string OBDPHAWD_ERROR_NOT_IMPLEMENTED = "Not implemented" ∧
    obdphawd_error_string OBDPHAWD_ERROR_BLUETOOTH = "Bluetooth error" := by
  decide

/-- Claim C3: `obdphawd_error_string` is total: every code in [-7, 0]
reads the table at the in-bounds index `-e`, and every other integer
yields the fallback "Unknown error". -/
theorem error_string_total (e : Int) :
    (-7 ≤ e ∧ e ≤ 0 →
      (-e).toNat < error_strings.length ∧
      obdphawd_error_string e = error_strings.getD (-e).toNat "Unknown error") ∧
    (0 < e ∨ e < -7 → obdphawd_error_string e = "Unknown error") := by
  have hlen : (error_strings.length : Int) = 8 := by decide
  constructor
  · rintro ⟨h1, h2⟩
    constructor
    · have : (-e).toNat < 8 := by omega
      simpa [error_strings] using this
    · unfold obdphawd_error_string
      rw [if_pos]
      rw [hlen]
      omega
  · rintro (h | h) <;>
    · unfold obdphawd_error_string
      rw [if_neg]
      rw [hlen]
      omega

/-- Witness for C3 at concrete inputs: -4 is the timeout code, 5 is
outside the surface. -/
theorem error_string_total_witness :
    obdphawd_error_string (-4) = "Operation timeout" ∧
    obdphawd_error_string 5 = "Unknown error" := by
  constructor
  · have h := (error_string_total (-4)).1 (by decide)
    simpa [error_strings] using h.2
  · exact (error_string_total 5).2 (Or.inl (by decide))

/-- Claim C2: `obdphawd_set_log_level L` changes only the global log
level: the error-string table, the allocation counter and every
previously created context are untouched; and any context created by a
(successful) `obdphawd_init` starts with the log level the global has at
that moment — in particular `L` right after the call. -/
theorem set_log_level_frame (L : Int) (s : LibState) :
    (obdphawd_set_log_level L s).g_log_level = L ∧
    (obdphawd_set_log_level L s).error_table = s.error_table ∧
    (obdphawd_set_log_level L s).next_id = s.next_id ∧
    (obdphawd_set_log_level L s).contexts = s.contexts ∧
    (∀ s' : LibState,
      ((obdphawd_init true true s').2.1.contexts.head?.map
        (fun p => p.2.log_level)) = some s'.g_log_level) ∧
    ((obdphawd_init true true (obdphawd_set_log_level L s)).2.1.contexts.head?.map
        (fun p => p.2.log_level)) = some L := by
  refine ⟨rfl, rfl, rfl, rfl, fun s' => ?_, ?_⟩ <;>
    simp [obdphawd_init, obdphawd_set_log_level]

/-- Claim C9: `obdphawd_cleanup` on a NULL context is a safe no-op: the
state is returned unchanged and the effect trace is empty (nothing
freed, no mutex touched, nothing printed). -/
theorem cleanup_null_noop (s : LibState) :
    obdphawd_cleanup none s = (s, []) := rfl

/-- Claim C10: `obdphawd_version` is a deterministic constant: in every
state it returns "0.1.0", the value of `OBDPHAWD_VERSION_STRING`, and
its result never depends on the state. -/
theorem version_constant :
    (∀ s : LibState, obdphawd_version s = "0.1.0") ∧
    (∀ s : LibState, obdphawd_version s = OBDPHAWD_VERSION_STRING) ∧
    (∀ s s' : LibState, obdphawd_version s = obdphawd_version s') :=
  ⟨fun _ => rfl, fun _ => rfl, fun _ _ => rfl⟩

/-! ## Part 2: the Codec (spec §4.1)

The Codec is declared by the headers (`obd2_protocol.h` is included but
absent from the tree) and specified in §4.1; no implementation exists
under src/, so it is modelled from the spec. -/

/-- Modelled from the spec: the decoded-value variant of §3 ("a tagged
variant: numeric with unit, enumerated, bitfield, text, raw bytes"); the
cases the claims exercise. -/
inductive DecodedValue where
  | numeric (value : ℚ) (unit : String)
  | text (s : String)
  | raw (bytes : List Nat)
deriving DecidableEq, Repr

/-- Modelled from the spec: the error kinds of §7 that the decode path
can surface (`Protocol` — negative response carrying the NRC, unexpected
service byte — and `Decode` — too few bytes for the PID decoder). -/
inductive SessionError where
  | protocolNegative (nrc : Nat)
  | unexpectedService (b : Nat)
  | decodeTooFewBytes
  | malformedResponse
deriving DecidableEq, Repr

instance {ε α : Type} [DecidableEq ε] [DecidableEq α] : DecidableEq (Except ε α) :=
  fun x y =>
    match x, y with
    | .ok a, .ok b =>
        if h : a = b then .isTrue (by rw [h]) else .isFalse (by simp [h])
    | .error a, .error b =>
        if h : a = b then .isTrue (by rw [h]) else .isFalse (by simp [h])
    | .ok _, .error _ => .isFalse (by simp)
    | .error _, .ok _ => .isFalse (by simp)

/-- Modelled from the spec: the per-PID decoder table of §4.1 ("applies
the J1979 formula table"; "each PID has exactly one decoder"). Implements
the PIDs the scenarios use: 0x0C Engine RPM = (256·A+B)/4, 0x05 Coolant
temperature = A − 40 °C; an unknown PID yields raw bytes ("never a
fabricated value"). -/
def pidDecode (pid : Nat) (data : List Nat) : Except SessionError DecodedValue :=
  match pid, data with
  | 0x0C, a :: b :: _ => .ok (.numeric ((256 * a + b : ℚ) / 4) "RPM")
  | 0x0C, _ => .error .decodeTooFewBytes
  | 0x05, a :: _ => .ok (.numeric ((a : ℚ) - 40) "degC")
  | 0x05, _ => .error .decodeTooFewBytes
  | _, d => .ok (.raw d)

/-- Modelled from the spec: `decode(service, pid, bytes)` of §4.1, over
an arbitrary PID-decoder table `decoder`. A frame whose first byte is
0x7F is a negative response: it is surfaced as a protocol-level failure
carrying the NRC in its byte 2, before any decoder is consulted. An
accepted response must echo `service ||| 0x40` and the PID; the remaining
data bytes go to the PID decoder. -/
def decodeResponse (decoder : Nat → List Nat → Except SessionError DecodedValue)
    (service pid : Nat) (bytes : List Nat) : Except SessionError DecodedValue :=
  match bytes with
  | [] => .error .malformedResponse
  | b0 :: rest =>
    if b0 = 0x7F then
      .error (.protocolNegative (bytes.getD 2 0))
    else if b0 ≠ service ||| 0x40 then
      .error (.unexpectedService b0)
    else
      match rest with
      | [] => .error .malformedResponse
      | p :: data => if p = pid then decoder pid data else .error .malformedResponse

/-- Claim C5: decoding the response `41 0C 1A F8` to request
{service=0x01, pid=0x0C} yields 1726 RPM, and 1726 is exactly the J1979
formula (256·A+B)/4 at A=0x1A, B=0xF8. -/
theorem engine_rpm_decode :
    decodeResponse pidDecode 0x01 0x0C [0x41, 0x0C, 0x1A, 0xF8] =
      .ok (.numeric 1726 "RPM") ∧
    ((256 * (0x1A : ℚ) + 0xF8) / 4 = 1726) := by
  constructor
  · have h : (1 : Nat) ||| 64 = 65 := by decide
    show decodeResponse pidDecode 1 12 [65, 12, 26, 248] = .ok (.numeric 1726 "RPM")
    simp only [decodeResponse, h]
    norm_num [pidDecode]
  · norm_num

/-- Claim C6: a frame whose first byte is 0x7F is never handed to a PID
decoder: whatever the decoder table, the decode path returns the
protocol-level failure carrying the NRC found in the frame's byte 2. -/
theorem negative_response_surfaced
    (decoder : Nat → List Nat → Except SessionError DecodedValue)
    (service pid : Nat) (bytes : List Nat)
    (h : bytes.head? = some 0x7F) :
    decodeResponse decoder service pid bytes =
      .error (.protocolNegative (bytes.getD 2 0)) := by
  match bytes, h with
  | b0 :: rest, h =>
    have hb : b0 = 0x7F := by simpa using h
    simp [decodeResponse, hb]

/-- Witness for C6: the negative response `7F 01 12` of spec scenario 4,
under the concrete J1979 decoder table, surfaces NRC 0x12. -/
theorem negative_response_surfaced_witness :
    [0x7F, 0x01, 0x12].head? = some 0x7F ∧
    decodeResponse pidDecode 0x01 0xFF [0x7F, 0x01, 0x12] =
      .error (.protocolNegative 0x12) :=
  ⟨rfl, negative_response_surfaced pidDecode 0x01 0xFF [0x7F, 0x01, 0x12] rfl⟩

/-! ## Part 3: BLE MAC canonicalization (spec §3, §6; `bluetooth_le.h`)

`obdphawd_ble_device_t` in `bluetooth_le.h` stores the address in
`char address[18]`; the canonicalization itself is specified but not
implemented under src/, so it is modelled from the spec. -/

/-- The size of the `char address[18]` field of `obdphawd_ble_device_t`
in `bluetooth_le.h`. -/
def obdphawd_ble_device_address_size : Nat := 18

/-- Modelled from the spec: an uppercase hexadecimal digit. -/
def hexDigitUpper (n : Nat) : Char :=
  if n < 10 then Char.ofNat (48 + n) else Char.ofNat (55 + n)

/-- Modelled from the spec: the two uppercase hex digits of one byte. -/
def byteHexChars (b : Nat) : List Char :=
  [hexDigitUpper (b / 16 % 16), hexDigitUpper (b % 16)]

/-- Modelled from the spec: MAC canonicalization to uppercase
colon-separated `XX:XX:XX:XX:XX:XX` ("MAC addresses normalized to
uppercase colon-separated hex"), over the address bytes. -/
def macCanonicalChars (bytes : List Nat) : List Char :=
  match bytes with
  | [] => []
  | [b] => byteHexChars b
  | b :: rest => byteHexChars b ++ ':' :: macCanonicalChars rest

/-- The `obdphawd_ble_device_t` record of `bluetooth_le.h`
(`address[18]`, `name[256]`, `rssi`, `connectable`, `appearance`). -/
structure obdphawd_ble_device_t where
  address : List Char
  name : List Char
  rssi : Int
  connectable : Bool
  appearance : Nat
deriving DecidableEq, Repr

/-- Modelled from the spec: a BLE device record is built with its MAC
address already canonicalized. -/
def mkBleDevice (mac : List Nat) (devName : List Char) (rssi : Int)
    (connectable : Bool) (appearance : Nat) : obdphawd_ble_device_t :=
  { address := macCanonicalChars mac
  , name := devName
  , rssi := rssi
  , connectable := connectable
  , appearance := appearance }

/-- The characters the canonical MAC form may contain. -/
def macAlphabet : List Char :=
  ['0', '1', '2', '3', '4', '5', '6', '7', '8', '9',
   'A', 'B', 'C', 'D', 'E', 'F', ':']

/-- Every uppercase hex digit of a nibble is in the MAC alphabet. -/
theorem hexDigitUpper_mem (n : Nat) (h : n < 16) : hexDigitUpper n ∈ macAlphabet := by
  interval_cases n <;> decide

/-- Both hex digits of a byte are in the MAC alphabet. -/
theorem byteHexChars_subset (b : Nat) : ∀ c ∈ byteHexChars b, c ∈ macAlphabet := by
  intro c hc
  simp only [byteHexChars, List.mem_cons, List.not_mem_nil, or_false] at hc
  rcases hc with rfl | rfl
  · exact hexDigitUpper_mem _ (Nat.mod_lt _ (by omega))
  · exact hexDigitUpper_mem _ (Nat.mod_lt _ (by omega))

/-- The canonical MAC form only contains uppercase hex digits and
colons. -/
theorem macCanonicalChars_subset (bs : List Nat) :
    ∀ c ∈ macCanonicalChars bs, c ∈ macAlphabet := by
  induction bs with
  | nil => intro c hc; simp [macCanonicalChars] at hc
  | cons b rest ih =>
    cases rest with
    | nil => intro c hc; exact byteHexChars_subset b c hc
    | cons b' rest' =>
      intro c hc
      have hrw : macCanonicalChars (b :: b' :: rest') =
          byteHexChars b ++ ':' :: macCanonicalChars (b' :: rest') := rfl
      rw [hrw, List.mem_append, List.mem_cons] at hc
      rcases hc with hc | hc | hc
      · exact byteHexChars_subset b c hc
      · subst hc; decide
      · exact ih c hc

/-- Claim C8: a BLE device record stores its MAC in the canonical
uppercase colon-separated form; for a 6-byte MAC that form is exactly 17
characters, so with its NUL terminator it fits the 18-byte `address`
field of `obdphawd_ble_device_t`, and it only contains uppercase hex
digits and colons. -/
theorem ble_mac_canonical_fits (mac : List Nat) (devName : List Char)
    (rssi : Int) (connectable : Bool) (appearance : Nat)
    (h : mac.length = 6) :
    (mkBleDevice mac devName rssi connectable appearance).address =
      macCanonicalChars mac ∧
    (macCanonicalChars mac).length = 17 ∧
    (macCanonicalChars mac).length + 1 ≤ obdphawd_ble_device_address_size ∧
    ∀ c ∈ macCanonicalChars mac, c ∈ macAlphabet := by
  match mac, h with
  | [b0, b1, b2, b3, b4, b5], _ =>
    refine ⟨rfl, by simp [macCanonicalChars, byteHexChars], ?_,
      macCanonicalChars_subset _⟩
    simp [macCanonicalChars, byteHexChars, obdphawd_ble_device_address_size]

/-- Witness for C8 at the concrete MAC bytes 12:AB:34:CD:56:EF. -/
theorem ble_mac_canonical_fits_witness :
    [0x12, 0xAB, 0x34, 0xCD, 0x56, 0xEF].length = 6 ∧
    (macCanonicalChars [0x12, 0xAB, 0x34, 0xCD, 0x56, 0xEF]).length = 17 :=
  ⟨rfl,
   (ble_mac_canonical_fits [0x12, 0xAB, 0x34, 0xCD, 0x56, 0xEF] [] 0 true 0
      rfl).2.1⟩

/-! ## Part 4: the ISO-TP layer (spec §4.2)

No ISO-TP implementation exists under src/; the frame formats, the
transmitter and the inbound state machine are modelled from spec §4.2.
A frame is its list of payload bytes; a PCI byte with high nibble `h`
and low nibble `l` is the number `h * 16 + l`. -/

/-- Modelled from the spec: a Single Frame — PCI high nibble 0, low
nibble the length, then the message bytes (message length ≤ 7). -/
def sfFrame (msg : List Nat) : List Nat :=
  msg.length :: msg

/-- Modelled from the spec: a First Frame — PCI high nibble 1, the
12-bit length split as `(1 <<nibble>> | len >> 8)` then `len & 0xFF`,
then the first 6 message bytes. -/
def ffFrame (msg : List Nat) : List Nat :=
  (16 + msg.length / 256) :: (msg.length % 256) :: msg.take 6

/-- Modelled from the spec: a Consecutive Frame — PCI high nibble 2, low
nibble the sequence number, then up to 7 payload bytes. -/
def cfFrame (seq : Nat) (payload : List Nat) : List Nat :=
  (32 + seq % 16) :: payload

/-- Modelled from the spec: the train of Consecutive Frames for the
remaining data, 7 bytes per frame, sequence numbers wrapping at 0xF. -/
def mkCFs (seq : Nat) (data : List Nat) : List (List Nat) :=
  if data = [] then []
  else cfFrame seq (data.take 7) :: mkCFs ((seq + 1) % 16) (data.drop 7)
termination_by data.length
decreasing_by
  rename_i h
  simp only [List.length_drop]
  have : data.length ≠ 0 := fun hz => h (List.length_eq_zero.mp hz)
  omega

/-- Modelled from the spec: the ISO-TP transmitter — a message of at
most 7 bytes goes out as a Single Frame; a longer one as a First Frame
carrying the 12-bit length and the first 6 bytes, followed by
Consecutive Frames with sequence numbers starting at 1. -/
def isotpTransmit (msg : List Nat) : List (List Nat) :=
  if msg.length ≤ 7 then [sfFrame msg]
  else ffFrame msg :: mkCFs 1 (msg.drop 6)

/-- Modelled from the spec: the inbound states of §4.2 — Idle, or
Receiving with the expected total length, the bytes received so far and
the next expected sequence number. -/
inductive RxState where
  | idle
  | receiving (expectedLen : Nat) (buffer : List Nat) (expectedSeq : Nat)
deriving DecidableEq, Repr

/-- Modelled from the spec: the observable events of the inbound state
machine — a completed message, an emitted Flow Control frame, the
`IsoTpSequenceError`, or a malformed frame. -/
inductive RxEvent where
  | msg (bytes : List Nat)
  | fc (frame : List Nat)
  | seqError
  | frameError
deriving DecidableEq, Repr

/-- Modelled from the spec: handling of a Consecutive Frame (§4.2) — a
CF is rejected with `IsoTpSequenceError` (and the reassembly context
reset to Idle) if the machine is not Receiving or the sequence nibble
mismatches; otherwise its payload is appended and the message emitted
once the expected length is reached. -/
def rxCF (s : RxState) (pci : Nat) (rest : List Nat) : RxState × List RxEvent :=
  match s with
  | .idle => (.idle, [.seqError])
  | .receiving len buf seq =>
      if pci % 16 = seq then
        if len ≤ (buf ++ rest).length then (.idle, [.msg ((buf ++ rest).take len)])
        else (.receiving len (buf ++ rest) ((seq + 1) % 16), [])
      else (.idle, [.seqError])

/-- Modelled from the spec: one step of the inbound state machine of
§4.2, dispatching on the PCI high nibble. SF emits the message and
returns to Idle; FF allocates `len = ((pci & 0x0F) << 8) | byte1`,
stores the first slice, emits an FC (flow status 0, BS=0, STmin=0) and
enters Receiving with expected sequence 1; a CF is handled by `rxCF`;
an FC is for the outbound side and leaves the inbound state alone. -/
def rxStep (s : RxState) (frame : List Nat) : RxState × List RxEvent :=
  match frame with
  | [] => (s, [.frameError])
  | pci :: rest =>
    if pci / 16 = 0 then (.idle, [.msg (rest.take (pci % 16))])
    else if pci / 16 = 1 then
      match rest with
      | [] => (s, [.frameError])
      | b1 :: data =>
          (.receiving ((pci % 16) * 256 + b1) data 1, [.fc [0x30, 0x00, 0x00]])
    else if pci / 16 = 2 then rxCF s pci rest
    else if pci / 16 = 3 then (s, [])
    else (s, [.frameError])

/-- Run the inbound state machine over a list of frames, collecting the
events in order. -/
def rxRun (s : RxState) (frames : List (List Nat)) : RxState × List RxEvent :=
  match frames with
  | [] => (s, [])
  | f :: fs =>
      let (s', evs) := rxStep s f
      let (s'', evs') := rxRun s' fs
      (s'', evs ++ evs')

/-- The completed messages a frame list reassembles to, starting from
Idle. -/
def reassembleMsgs (frames : List (List Nat)) : List (List Nat) :=
  (rxRun .idle frames).2.filterMap
    (fun e => match e with | .msg m => some m | _ => none)

/-- The sequence-number nibble of a frame's PCI byte. -/
def seqNibble (frame : List Nat) : Nat := frame.headD 0 % 16

/-- Whether a frame is a Consecutive Frame (PCI high nibble 2). -/
def isCF (frame : List Nat) : Bool := frame.headD 0 / 16 == 2

theorem rxRun_nil (s : RxState) : rxRun s [] = (s, []) := rfl

theorem rxRun_cons (s : RxState) (f : List Nat) (fs : List (List Nat)) :
    rxRun s (f :: fs) =
      ((rxRun (rxStep s f).1 fs).1, (rxStep s f).2 ++ (rxRun (rxStep s f).1 fs).2) := by
  simp [rxRun]

/-! ### Step lemmas for the four frame kinds -/

theorem rxStep_sf (s : RxState) (pci : Nat) (rest : List Nat) (h0 : pci / 16 = 0) :
    rxStep s (pci :: rest) = (.idle, [.msg (rest.take (pci % 16))]) := by
  simp only [rxStep]
  rw [if_pos h0]

theorem rxStep_ff (s : RxState) (pci b1 : Nat) (data : List Nat) (h1 : pci / 16 = 1) :
    rxStep s (pci :: b1 :: data) =
      (.receiving ((pci % 16) * 256 + b1) data 1, [.fc [0x30, 0x00, 0x00]]) := by
  simp only [rxStep]
  rw [if_neg (by omega), if_pos h1]

theorem rxStep_cf (s : RxState) (pci : Nat) (rest : List Nat) (h2 : pci / 16 = 2) :
    rxStep s (pci :: rest) = rxCF s pci rest := by
  simp only [rxStep]
  rw [if_neg (by omega), if_neg (by omega), if_pos h2]

theorem rxCF_complete (len : Nat) (buf : List Nat) (seq pci : Nat) (rest : List Nat)
    (hq : pci % 16 = seq) (hcomp : len ≤ (buf ++ rest).length) :
    rxCF (.receiving len buf seq) pci rest = (.idle, [.msg ((buf ++ rest).take len)]) := by
  simp only [rxCF]
  rw [if_pos hq, if_pos hcomp]

theorem rxCF_more (len : Nat) (buf : List Nat) (seq pci : Nat) (rest : List Nat)
    (hq : pci % 16 = seq) (hlt : (buf ++ rest).length < len) :
    rxCF (.receiving len buf seq) pci rest =
      (.receiving len (buf ++ rest) ((seq + 1) % 16), []) := by
  simp only [rxCF]
  rw [if_pos hq, if_neg (by omega)]

theorem rxCF_mismatch (len : Nat) (buf : List Nat) (seq pci : Nat) (rest : List Nat)
    (hq : pci % 16 ≠ seq) :
    rxCF (.receiving len buf seq) pci rest = (.idle, [.seqError]) := by
  simp only [rxCF]
  rw [if_neg hq]

theorem rxCF_idle (pci : Nat) (rest : List Nat) :
    rxCF .idle pci rest = (.idle, [.seqError]) := rfl

/-! ### The transmit/reassemble round trip (C4) -/

/-- Running the receiver, already in Receiving, over the train of CFs
for the remaining `data` completes exactly the message `buf ++ data`. -/
theorem rxRun_mkCFs (data : List Nat) (len : Nat) (buf : List Nat) (seq : Nat)
    (hseq : seq < 16) (hlen : len = buf.length + data.length) (hd : data ≠ []) :
    rxRun (.receiving len buf seq) (mkCFs seq data) = (.idle, [.msg (buf ++ data)]) := by
  have hq : (32 + seq % 16) % 16 = seq := by omega
  have h2 : (32 + seq % 16) / 16 = 2 := by omega
  by_cases hsmall : data.length ≤ 7
  · have htake : data.take 7 = data := List.take_of_length_le hsmall
    have hdrop : data.drop 7 = [] := List.drop_eq_nil_of_le hsmall
    have hcomp : len ≤ (buf ++ data).length := by
      simp only [List.length_append]; omega
    rw [mkCFs, if_neg hd, htake, hdrop, rxRun_cons]
    simp only [cfFrame]
    rw [rxStep_cf _ _ _ h2, rxCF_complete len buf seq _ data hq hcomp]
    rw [mkCFs, if_pos rfl, rxRun_nil]
    have hfull : (buf ++ data).take len = buf ++ data := by
      rw [hlen, ← List.length_append]
      exact List.take_length _
    rw [hfull]
    simp
  · push_neg at hsmall
    have hlt : (buf ++ data.take 7).length < len := by
      simp only [List.length_append, List.length_take]
      omega
    rw [mkCFs, if_neg hd, rxRun_cons]
    simp only [cfFrame]
    rw [rxStep_cf _ _ _ h2, rxCF_more len buf seq _ (data.take 7) hq hlt]
    have hrec := rxRun_mkCFs (data.drop 7) len (buf ++ data.take 7) ((seq + 1) % 16)
      (Nat.mod_lt _ (by omega))
      (by simp only [List.length_append, List.length_take, List.length_drop]; omega)
      (by
        intro hnil
        have hle := congrArg List.length hnil
        simp only [List.length_drop, List.length_nil] at hle
        omega)
    rw [hrec]
    simp [List.take_append_drop]
termination_by data.length
decreasing_by
  simp only [List.length_drop]
  omega

/-- Claim C4: transmit/reassemble round trip — for every message the
ISO-TP layer accepts (length ≤ 4095, the 12-bit FF length bound of §3),
transmitting it as a single SF or as FF followed by CFs and feeding the
produced frames back through the reassembler yields exactly the
original message bytes. -/
theorem isotp_roundtrip (msg : List Nat) (h : msg.length ≤ 4095) :
    reassembleMsgs (isotpTransmit msg) = [msg] := by
  unfold isotpTransmit reassembleMsgs
  by_cases hs : msg.length ≤ 7
  · rw [if_pos hs, rxRun_cons, sfFrame,
      rxStep_sf .idle msg.length msg (by omega), rxRun_nil]
    have hm : msg.length % 16 = msg.length := by omega
    rw [hm, List.take_length]
    simp [List.filterMap]
  · rw [if_neg hs]
    push_neg at hs
    rw [rxRun_cons, ffFrame,
      rxStep_ff .idle (16 + msg.length / 256) (msg.length % 256) (msg.take 6)
        (by omega)]
    have hlen256 : ((16 + msg.length / 256) % 16) * 256 + msg.length % 256 =
        msg.length := by omega
    rw [hlen256]
    have hrec := rxRun_mkCFs (msg.drop 6) msg.length (msg.take 6) 1 (by omega)
      (by simp only [List.length_take, List.length_drop]; omega)
      (by
        intro hnil
        have hle := congrArg List.length hnil
        simp only [List.length_drop, List.length_nil] at hle
        omega)
    rw [hrec]
    simp [List.filterMap, List.take_append_drop]

/-- Witness for C4 at a concrete 10-byte message (FF + one CF). -/
theorem isotp_roundtrip_witness :
    ([0, 1, 2, 3, 4, 5, 6, 7, 8, 9] : List Nat).length ≤ 4095 ∧
    reassembleMsgs (isotpTransmit [0, 1, 2, 3, 4, 5, 6, 7, 8, 9]) =
      [[0, 1, 2, 3, 4, 5, 6, 7, 8, 9]] :=
  ⟨by decide, isotp_roundtrip [0, 1, 2, 3, 4, 5, 6, 7, 8, 9] (by decide)⟩

/-! ### Sequence numbers of consecutive frames (C7) -/

/-- In a run of the receiver over Consecutive Frames that observes no
`IsoTpSequenceError`, the i-th sequence nibble is `(seq + i) % 16`. -/
theorem rxRun_cf_seq_nibbles (frames : List (List Nat)) :
    ∀ (len : Nat) (buf : List Nat) (seq : Nat), seq < 16 →
      (∀ f ∈ frames, isCF f = true) →
      RxEvent.seqError ∉ (rxRun (.receiving len buf seq) frames).2 →
      ∀ i, i < frames.length → seqNibble (frames.getD i []) = (seq + i) % 16 := by
  induction frames with
  | nil =>
    intro len buf seq _ _ _ i hi
    simp at hi
  | cons f fs ih =>
    intro len buf seq hseq hcf hne i hi
    obtain ⟨pci, rest, rfl⟩ : ∃ pci rest, f = pci :: rest := by
      cases f with
      | nil =>
        exfalso
        have hh := hcf [] (by simp)
        simp [isCF] at hh
      | cons a b => exact ⟨a, b, rfl⟩
    have hpci : pci / 16 = 2 := by
      have hh := hcf (pci :: rest) (by simp)
      simpa [isCF] using hh
    rw [rxRun_cons, rxStep_cf _ _ _ hpci] at hne
    by_cases hqe : pci % 16 = seq
    · by_cases hcomp : len ≤ (buf ++ rest).length
      · rw [rxCF_complete len buf seq _ rest hqe hcomp] at hne
        simp only [List.singleton_append, List.mem_cons, not_or] at hne
        obtain ⟨-, hne⟩ := hne
        have hfs : fs = [] := by
          cases fs with
          | nil => rfl
          | cons g gs =>
            exfalso
            obtain ⟨p2, r2, rfl⟩ : ∃ p2 r2, g = p2 :: r2 := by
              cases g with
              | nil =>
                have hh := hcf [] (by simp)
                simp [isCF] at hh
              | cons a b => exact ⟨a, b, rfl⟩
            have hp2 : p2 / 16 = 2 := by
              have hh := hcf (p2 :: r2) (by simp)
              simpa [isCF] using hh
            rw [rxRun_cons, rxStep_cf _ _ _ hp2, rxCF_idle] at hne
            simp at hne
        subst hfs
        have hi0 : i = 0 := by
          simp only [List.length_cons, List.length_nil] at hi
          omega
        subst hi0
        show seqNibble (pci :: rest) = (seq + 0) % 16
        simp only [seqNibble, List.headD]
        omega
      · push_neg at hcomp
        rw [rxCF_more len buf seq _ rest hqe hcomp] at hne
        simp only [List.nil_append] at hne
        cases i with
        | zero =>
          show seqNibble (pci :: rest) = (seq + 0) % 16
          simp only [seqNibble, List.headD]
          omega
        | succ j =>
          have hj := ih len (buf ++ rest) ((seq + 1) % 16) (Nat.mod_lt _ (by omega))
            (fun g hg => hcf g (by simp [hg])) hne j
            (by simp only [List.length_cons] at hi; omega)
          show seqNibble (fs.getD j []) = (seq + (j + 1)) % 16
          rw [hj]
          omega
    · rw [rxCF_mismatch len buf seq _ rest hqe] at hne
      simp at hne

/-- Claim C7: in every accepted multi-frame reception — the receiver,
expecting sequence 1 (which is where the FF leaves it, third conjunct),
processes Consecutive Frames and observes no `IsoTpSequenceError` — the
sequence nibbles form 1, 2, …, 15, 0, 1, … with no gaps; and any gap (a
CF whose sequence nibble differs from the expected one) produces exactly
one `IsoTpSequenceError` event and resets that reassembly context to
Idle. -/
theorem cf_sequence_invariant :
    (∀ (len : Nat) (buf : List Nat) (frames : List (List Nat)),
      (∀ f ∈ frames, isCF f = true) →
      RxEvent.seqError ∉ (rxRun (.receiving len buf 1) frames).2 →
      ∀ i, i < frames.length → seqNibble (frames.getD i []) = (1 + i) % 16) ∧
    (∀ (len : Nat) (buf : List Nat) (seq : Nat) (f : List Nat),
      isCF f = true → seqNibble f ≠ seq →
      rxStep (.receiving len buf seq) f = (.idle, [.seqError])) ∧
    (∀ (s : RxState) (pci b1 : Nat) (data : List Nat), pci / 16 = 1 →
      (rxStep s (pci :: b1 :: data)).1 =
        .receiving ((pci % 16) * 256 + b1) data 1) := by
  refine ⟨?_, ?_, ?_⟩
  · intro len buf frames hcf hne i hi
    exact rxRun_cf_seq_nibbles frames len buf 1 (by omega) hcf hne i hi
  · intro len buf seq f hf hq
    obtain ⟨pci, rest, rfl⟩ : ∃ pci rest, f = pci :: rest := by
      cases f with
      | nil => simp [isCF] at hf
      | cons a b => exact ⟨a, b, rfl⟩
    have hpci : pci / 16 = 2 := by simpa [isCF] using hf
    rw [rxStep_cf _ _ _ hpci]
    exact rxCF_mismatch len buf seq pci rest
      (by simpa [seqNibble, List.headD] using hq)
  · intro s pci b1 data h1
    rw [rxStep_ff s pci b1 data h1]

/-- Witness for C7: a gapless two-CF run has nibbles 1, 2; the
out-of-sequence CF `23 09` against expected sequence 1 yields exactly
one sequence error and a reset. -/
theorem cf_sequence_invariant_witness :
    seqNibble [0x21, 0x0A] = 1 ∧
    rxStep (.receiving 20 [] 1) [0x23, 0x09] = (.idle, [.seqError]) :=
  ⟨cf_sequence_invariant.1 20 [] [[0x21, 0x0A], [0x22, 0x0B]]
      (by decide) (by decide) 0 (by decide),
   cf_sequence_invariant.2.1 20 [] 1 [0x23, 0x09] (by decide) (by decide)⟩

end OBDPHAWD
